import Mathlib

/-!
Verification of the gesture-to-interaction engine of the hand-tracking
string-instrument installation.  The source is TypeScript; screen
coordinates and normalized landmark coordinates are embedded as exact
rationals, wall-clock milliseconds as integers, and frame counters as
naturals.  Every definition mirrors the corresponding source block; the
relevant source file and lines are named next to each definition.
-/

/-- Screen-space or normalized point, `Point` of `src/types` (the TS
`Point`, `XYPoint` and `HandLandmark` are structurally identical, so a
single structure embeds all three). -/
structure Point where
  x : ℚ
  y : ℚ
deriving DecidableEq

/-- Counter-clockwise test of `segmentsIntersect` in `src/utils/geoUtils.ts`
lines 9-11: `(c.y - a.y) * (b.x - a.x) > (b.y - a.y) * (c.x - a.x)`. -/
def ccw (a b c : Point) : Bool :=
  decide ((c.y - a.y) * (b.x - a.x) > (b.y - a.y) * (c.x - a.x))

/-- Segment-intersection test, `src/utils/geoUtils.ts` lines 8-17.
Segment 1 is `p1`-`p2`, segment 2 is `p3`-`p4`. -/
def segmentsIntersect (p1 p2 p3 p4 : Point) : Bool :=
  (ccw p1 p3 p4 != ccw p2 p3 p4) && (ccw p1 p2 p3 != ccw p1 p2 p4)

/-- Signed orientation value underlying `ccw`: the cross product of
`b - a` and `c - a`.  `ccw a b c` holds iff this is positive. -/
def crossVal (a b c : Point) : ℚ :=
  (b.x - a.x) * (c.y - a.y) - (b.y - a.y) * (c.x - a.x)

theorem ccw_eq_crossVal (a b c : Point) :
    ccw a b c = decide (0 < crossVal a b c) := by
  have h : ((c.y - a.y) * (b.x - a.x) > (b.y - a.y) * (c.x - a.x)) ↔
      0 < crossVal a b c := by
    unfold crossVal
    constructor <;> intro h <;> nlinarith
  simp only [ccw, decide_eq_decide]
  exact h

theorem crossVal_swap12 (a b c : Point) : crossVal b a c = -crossVal a b c := by
  unfold crossVal; ring

theorem crossVal_swap23 (a b c : Point) : crossVal a c b = -crossVal a b c := by
  unfold crossVal; ring

theorem crossVal_cyclic (a b c : Point) : crossVal a b c = crossVal b c a := by
  unfold crossVal; ring

theorem ccw_swap12 (a b c : Point) (h : crossVal a b c ≠ 0) :
    ccw b a c = !ccw a b c := by
  rw [ccw_eq_crossVal, ccw_eq_crossVal, crossVal_swap12]
  rcases lt_trichotomy (crossVal a b c) 0 with hlt | heq | hgt
  · simp [not_lt.mpr (le_of_lt hlt), neg_pos.mpr hlt]
  · exact absurd heq h
  · simp [hgt, not_lt.mpr (le_of_lt (neg_neg_of_pos hgt))]

theorem ccw_swap23 (a b c : Point) (h : crossVal a b c ≠ 0) :
    ccw a c b = !ccw a b c := by
  rw [ccw_eq_crossVal, ccw_eq_crossVal, crossVal_swap23]
  rcases lt_trichotomy (crossVal a b c) 0 with hlt | heq | hgt
  · simp [not_lt.mpr (le_of_lt hlt), neg_pos.mpr hlt]
  · exact absurd heq h
  · simp [hgt, not_lt.mpr (le_of_lt (neg_neg_of_pos hgt))]

theorem bne_not_not (x y : Bool) : ((!x) != (!y)) = (x != y) := by
  cases x <;> cases y <;> rfl

theorem bne_comm_bool (x y : Bool) : (x != y) = (y != x) := by
  cases x <;> cases y <;> rfl

/-- Claim C7 counterexample: `segmentsIntersect` is NOT symmetric under
swapping the endpoint order of the first segment, and segments sharing
only a grazing endpoint do NOT always return `false`.  Segment
(0,0)-(2,0) versus (1,0)-(1,1) (the latter touches the former at (1,0))
returns `true`, but with the first segment's endpoints exchanged it
returns `false`; and the L-shaped pair (0,0)-(1,0) versus (1,0)-(1,1),
which share only the endpoint (1,0) without crossing, returns `true`. -/
theorem C7_counterexample :
    segmentsIntersect ⟨0, 0⟩ ⟨2, 0⟩ ⟨1, 0⟩ ⟨1, 1⟩ = true ∧
    segmentsIntersect ⟨2, 0⟩ ⟨0, 0⟩ ⟨1, 0⟩ ⟨1, 1⟩ = false ∧
    segmentsIntersect ⟨0, 0⟩ ⟨1, 0⟩ ⟨1, 0⟩ ⟨1, 1⟩ = true := by
  refine ⟨?_, ?_, ?_⟩ <;> norm_num [segmentsIntersect, ccw]

/-- Claim C7 (amended): `segmentsIntersect`, implemented as the CCW test
of the source, is symmetric under swapping the endpoint order within each
segment whenever the configuration is nondegenerate (none of the four
endpoints is collinear with the other segment, i.e. all four orientation
cross products are nonzero); fully collinear configurations (which cover
collinear identical and collinear non-overlapping segments) return
`false`; and on the literal inputs: segment (0,0)-(10,0) versus
(5,-5)-(5,5) returns `true`, versus (5,1)-(5,5) returns `false`, and
versus (0,0)-(10,0) returns `false`.  (In degenerate grazing
configurations the strict test is order-sensitive and may return `true`,
as the counterexample shows.) -/
theorem C7_amended (p1 p2 p3 p4 : Point)
    (h12_3 : crossVal p1 p2 p3 ≠ 0) (h12_4 : crossVal p1 p2 p4 ≠ 0)
    (h34_1 : crossVal p3 p4 p1 ≠ 0) (h34_2 : crossVal p3 p4 p2 ≠ 0) :
    (segmentsIntersect p2 p1 p3 p4 = segmentsIntersect p1 p2 p3 p4 ∧
      segmentsIntersect p1 p2 p4 p3 = segmentsIntersect p1 p2 p3 p4) ∧
    (∀ q1 q2 q3 q4 : Point, crossVal q1 q2 q3 = 0 → crossVal q1 q2 q4 = 0 →
      segmentsIntersect q1 q2 q3 q4 = false) ∧
    segmentsIntersect ⟨0, 0⟩ ⟨10, 0⟩ ⟨5, -5⟩ ⟨5, 5⟩ = true ∧
    segmentsIntersect ⟨0, 0⟩ ⟨10, 0⟩ ⟨5, 1⟩ ⟨5, 5⟩ = false ∧
    segmentsIntersect ⟨0, 0⟩ ⟨10, 0⟩ ⟨0, 0⟩ ⟨10, 0⟩ = false := by
  refine ⟨⟨?_, ?_⟩, ?_, by norm_num [segmentsIntersect, ccw],
    by norm_num [segmentsIntersect, ccw], by norm_num [segmentsIntersect, ccw]⟩
  · unfold segmentsIntersect
    rw [ccw_swap12 p1 p2 p3 h12_3, ccw_swap12 p1 p2 p4 h12_4,
      bne_not_not, bne_comm_bool (ccw p2 p3 p4)]
  · unfold segmentsIntersect
    have e3 : crossVal p1 p3 p4 ≠ 0 := by
      rw [crossVal_cyclic]; exact h34_1
    have e4 : crossVal p2 p3 p4 ≠ 0 := by
      rw [crossVal_cyclic]; exact h34_2
    rw [ccw_swap23 p1 p3 p4 e3, ccw_swap23 p2 p3 p4 e4,
      bne_not_not, bne_comm_bool (ccw p1 p2 p4)]
  · intro q1 q2 q3 q4 h3 h4
    have c3 : ccw q1 q2 q3 = false := by
      rw [ccw_eq_crossVal, h3]; simp
    have c4 : ccw q1 q2 q4 = false := by
      rw [ccw_eq_crossVal, h4]; simp
    unfold segmentsIntersect
    rw [c3, c4]
    simp

/-- Claim C7 amended witness: the nondegeneracy hypotheses hold at the
spec's own literal crossing case (0,0)-(10,0) versus (5,-5)-(5,5), where
swapping each segment's endpoints leaves the (true) result unchanged. -/
theorem C7_amended_witness :
    segmentsIntersect ⟨10, 0⟩ ⟨0, 0⟩ ⟨5, -5⟩ ⟨5, 5⟩ =
      segmentsIntersect ⟨0, 0⟩ ⟨10, 0⟩ ⟨5, -5⟩ ⟨5, 5⟩ ∧
    segmentsIntersect ⟨0, 0⟩ ⟨10, 0⟩ ⟨5, 5⟩ ⟨5, -5⟩ =
      segmentsIntersect ⟨0, 0⟩ ⟨10, 0⟩ ⟨5, -5⟩ ⟨5, 5⟩ :=
  (C7_amended ⟨0, 0⟩ ⟨10, 0⟩ ⟨5, -5⟩ ⟨5, 5⟩ (by norm_num [crossVal])
    (by norm_num [crossVal]) (by norm_num [crossVal]) (by norm_num [crossVal])).1

/-- Distance from the wrist to a fingertip as the source computes it
(`Math.hypot(tip.x - wrist.x, tip.y - wrist.y)`), with the 2-argument
`Math.hypot` kept abstract as a parameter `hypot` (its value is a real
square root, irrational in general; every claim about `isOpenPalm` is a
claim about the guard/threshold structure, uniform in `hypot`). -/
def tipDist (hypot : ℚ → ℚ → ℚ) (wrist tip : Point) : ℚ :=
  hypot (tip.x - wrist.x) (tip.y - wrist.y)

/-- Open-palm classifier, `src/unnamed/part_007` lines 3-33.  The JS
`reduce` over the fingertip distances with initial value `Infinity` is
reached only under the `tips.length < 5` guard, so the minimum is over a
nonempty list; it is embedded as a fold from the first distance (the dead
empty-list branch returns 0). -/
def isOpenPalm (hypot : ℚ → ℚ → ℚ) (hand : List Point) : Bool :=
  match hand[0]? with
  | none => false
  | some wrist =>
    match hand[5]? with
    | none => false
    | some indexBase =>
      match hand[17]? with
      | none => false
      | some pinkyBase =>
        let palmWidth := hypot (indexBase.x - pinkyBase.x) (indexBase.y - pinkyBase.y)
        if palmWidth = 0 then false
        else
          let tips := [4, 8, 12, 16, 20].filterMap (fun i => hand[i]?)
          if tips.length < 5 then false
          else
            let avgTipDist :=
              (tips.foldl (fun s tip => s + tipDist hypot wrist tip) 0) / (tips.length : ℚ)
            let ratioAvg := avgTipDist / palmWidth
            match hand[8]? with
            | none => false
            | some indexTip =>
              match hand[20]? with
              | none => false
              | some pinkyTip =>
                let fingerSpread :=
                  hypot (indexTip.x - pinkyTip.x) (indexTip.y - pinkyTip.y) / palmWidth
                let minTipDist :=
                  match tips with
                  | [] => 0
                  | t :: ts => ts.foldl (fun m tip => min m (tipDist hypot wrist tip)) (tipDist hypot wrist t)
                let ratioMin := minTipDist / palmWidth
                decide (ratioAvg > 43/20) && decide (fingerSpread > 11/10) &&
                  decide (ratioMin > 19/10)

theorem length_filterMap_lt_of_none (f : ℕ → Option Point) (l : List ℕ) (i : ℕ)
    (hi : i ∈ l) (hf : f i = none) : (l.filterMap f).length < l.length := by
  induction l with
  | nil => cases hi
  | cons a l ih =>
    rcases List.mem_cons.mp hi with rfl | hmem
    · rw [List.filterMap_cons, hf]
      exact Nat.lt_succ_of_le (List.length_filterMap_le f l)
    · rw [List.filterMap_cons]
      cases hfa : f a with
      | none => exact Nat.lt_succ_of_lt (ih hmem)
      | some b => simpa using Nat.succ_lt_succ (ih hmem)

/-- Claim C9: `isOpenPalm` returns `true` iff all three ratio conditions
hold — average fingertip-to-wrist distance over palm width above 2.15,
index-to-pinky fingertip spread over palm width above 1.1, and minimum
fingertip-to-wrist distance over palm width above 1.9 — and for any hand
missing a required landmark (wrist 0, finger bases 5/17, or any fingertip
4/8/12/16/20) or with zero palm width it returns `false` rather than
throwing.  Stated uniformly in the abstract `hypot`. -/
theorem C9 (hypot : ℚ → ℚ → ℚ) (hand : List Point) :
    (∀ wrist indexBase pinkyBase thumbTip indexTip middleTip ringTip pinkyTip : Point,
      hand[0]? = some wrist → hand[5]? = some indexBase →
      hand[17]? = some pinkyBase → hand[4]? = some thumbTip →
      hand[8]? = some indexTip → hand[12]? = some middleTip →
      hand[16]? = some ringTip → hand[20]? = some pinkyTip →
      hypot (indexBase.x - pinkyBase.x) (indexBase.y - pinkyBase.y) ≠ 0 →
      (isOpenPalm hypot hand = true ↔
        ((tipDist hypot wrist thumbTip + tipDist hypot wrist indexTip +
            tipDist hypot wrist middleTip + tipDist hypot wrist ringTip +
            tipDist hypot wrist pinkyTip) / 5) /
          hypot (indexBase.x - pinkyBase.x) (indexBase.y - pinkyBase.y) > 43/20 ∧
        hypot (indexTip.x - pinkyTip.x) (indexTip.y - pinkyTip.y) /
          hypot (indexBase.x - pinkyBase.x) (indexBase.y - pinkyBase.y) > 11/10 ∧
        (min (min (min (min (tipDist hypot wrist thumbTip) (tipDist hypot wrist indexTip))
            (tipDist hypot wrist middleTip)) (tipDist hypot wrist ringTip))
            (tipDist hypot wrist pinkyTip)) /
          hypot (indexBase.x - pinkyBase.x) (indexBase.y - pinkyBase.y) > 19/10)) ∧
    ((hand[0]? = none ∨ hand[5]? = none ∨ hand[17]? = none ∨
      hand[4]? = none ∨ hand[8]? = none ∨ hand[12]? = none ∨
      hand[16]? = none ∨ hand[20]? = none) → isOpenPalm hypot hand = false) ∧
    (∀ indexBase pinkyBase : Point, hand[5]? = some indexBase →
      hand[17]? = some pinkyBase →
      hypot (indexBase.x - pinkyBase.x) (indexBase.y - pinkyBase.y) = 0 →
      isOpenPalm hypot hand = false) := by
  refine ⟨?_, ?_, ?_⟩
  · intro wrist indexBase pinkyBase thumbTip indexTip middleTip ringTip pinkyTip
      h0 h5 h17 h4 h8 h12 h16 h20 hpw
    simp only [isOpenPalm, h0, h5, h17, h4, h8, h12, h16, h20, List.filterMap_cons,
      List.filterMap_nil, List.length_cons, List.length_nil, List.foldl_cons,
      List.foldl_nil, if_neg hpw]
    norm_num [Bool.and_eq_true, and_assoc]
  · intro h
    cases h0 : hand[0]? with
    | none => simp [isOpenPalm, h0]
    | some wrist =>
      cases h5 : hand[5]? with
      | none => simp [isOpenPalm, h0, h5]
      | some indexBase =>
        cases h17 : hand[17]? with
        | none => simp [isOpenPalm, h0, h5, h17]
        | some pinkyBase =>
          have hi : ∃ i ∈ [4, 8, 12, 16, 20], hand[i]? = none := by
            rcases h with h | h | h | h | h | h | h | h
            · rw [h0] at h; cases h
            · rw [h5] at h; cases h
            · rw [h17] at h; cases h
            · exact ⟨4, by norm_num, h⟩
            · exact ⟨8, by norm_num, h⟩
            · exact ⟨12, by norm_num, h⟩
            · exact ⟨16, by norm_num, h⟩
            · exact ⟨20, by norm_num, h⟩
          obtain ⟨i, hil, hinone⟩ := hi
          by_cases hpw : hypot (indexBase.x - pinkyBase.x) (indexBase.y - pinkyBase.y) = 0
          · simp [isOpenPalm, h0, h5, h17, hpw]
          · have hlen := length_filterMap_lt_of_none (fun j => hand[j]?)
              [4, 8, 12, 16, 20] i hil hinone
            simp only [List.length_cons, List.length_nil] at hlen
            simp [isOpenPalm, h0, h5, h17, hpw, hlen]
  · intro indexBase pinkyBase h5 h17 hpw
    cases h0 : hand[0]? with
    | none => simp [isOpenPalm, h0]
    | some wrist => simp [isOpenPalm, h0, h5, h17, hpw]

/-- Claim C9 witness: on a concrete 21-landmark hand (palm width 1, every
fingertip at distance 3 from the wrist, wide spread) with a concrete
hypot-like function, all three ratio conditions hold and `isOpenPalm`
returns `true`. -/
theorem C9_witness :
    isOpenPalm (fun a b => |a| + |b|)
      [⟨0, 0⟩, ⟨0, 0⟩, ⟨0, 0⟩, ⟨0, 0⟩, ⟨3, 0⟩, ⟨1, 0⟩, ⟨0, 0⟩, ⟨0, 0⟩, ⟨3, 0⟩, ⟨0, 0⟩,
       ⟨0, 0⟩, ⟨0, 0⟩, ⟨0, 3⟩, ⟨0, 0⟩, ⟨0, 0⟩, ⟨0, 0⟩, ⟨3, 0⟩, ⟨0, 0⟩, ⟨0, 0⟩, ⟨0, 0⟩,
       ⟨0, 3⟩] = true := by
  have h := (C9 (fun a b => |a| + |b|)
      [⟨0, 0⟩, ⟨0, 0⟩, ⟨0, 0⟩, ⟨0, 0⟩, ⟨3, 0⟩, ⟨1, 0⟩, ⟨0, 0⟩, ⟨0, 0⟩, ⟨3, 0⟩, ⟨0, 0⟩,
       ⟨0, 0⟩, ⟨0, 0⟩, ⟨0, 3⟩, ⟨0, 0⟩, ⟨0, 0⟩, ⟨0, 0⟩, ⟨3, 0⟩, ⟨0, 0⟩, ⟨0, 0⟩, ⟨0, 0⟩,
       ⟨0, 3⟩]).1 ⟨0, 0⟩ ⟨1, 0⟩ ⟨0, 0⟩ ⟨3, 0⟩ ⟨3, 0⟩ ⟨0, 3⟩ ⟨3, 0⟩ ⟨0, 3⟩
      rfl rfl rfl rfl rfl rfl rfl rfl (by norm_num)
  exact h.mpr (by norm_num [tipDist])

/-- Engine constants of `src/unnamed/part_002` lines 36-46 (shared
verbatim by the rhythm variant in `src/unnamed/part_003` lines 39-49). -/
def SPAWN_DISTANCE_THRESHOLD : ℚ := 8/100

def SPAWN_TIME_REQUIRED : ℕ := 60

def LOCK_DISTANCE_THRESHOLD : ℚ := 55/100

def UNLOCK_DISTANCE_THRESHOLD : ℚ := 25/100

def LOCK_TIME_REQUIRED : ℕ := 30

def PLUCK_COOLDOWN : ℤ := 150

/-- Strum cooldown of the guitar variant, `src/unnamed/part_003` line 1102. -/
def STRUM_COOLDOWN : ℤ := 1100

/-- Per-frame state of the interaction state machine of
`src/unnamed/part_002` lines 439-509: the two hold-counter refs, the
one-shot spawn latch ref (`hasSpawnToggledRef`), and the two React states
`isStringsActive` and `isLocked`. -/
structure EngineState where
  spawnCounter : ℕ
  lockCounter : ℕ
  hasSpawnToggled : Bool
  stringsActive : Bool
  locked : Bool
deriving DecidableEq

/-- Per-frame input to the state machine: fewer than two hands tracked
(line 506 else-branch), two hands but a missing index-fingertip landmark
(the `if (idxA && idxB)` guard at line 445 fails, nothing runs), or the
two-hand index-fingertip distance `dist` of lines 449-451. -/
inductive HandsInput where
  | noHands
  | missingIndex
  | dist (d : ℚ)

/-- Next value of `spawnProgressFrameCounter` (lines 453-480): grows by 1
per close frame until the toggle fires (then resets to 0), and decays by
5 clamped at 0 (`Math.max(0, c - 5)`, truncated ℕ subtraction) when the
hands are apart. -/
def spawnCounterNext (s : EngineState) (d : ℚ) : ℕ :=
  if d < SPAWN_DISTANCE_THRESHOLD then
    if s.hasSpawnToggled then s.spawnCounter
    else if SPAWN_TIME_REQUIRED ≤ s.spawnCounter + 1 then 0 else s.spawnCounter + 1
  else s.spawnCounter - 5

/-- Whether this frame fires the spawn/despawn toggle (line 459). -/
def spawnToggles (s : EngineState) (d : ℚ) : Bool :=
  decide (d < SPAWN_DISTANCE_THRESHOLD) && !s.hasSpawnToggled &&
    decide (SPAWN_TIME_REQUIRED ≤ s.spawnCounter + 1)

/-- Next value of the one-shot latch `hasSpawnToggledRef` (lines 470 and
477-479): set on toggle, cleared only when the hands separate past 1.5x
the spawn threshold. -/
def latchNext (s : EngineState) (d : ℚ) : Bool :=
  if d < SPAWN_DISTANCE_THRESHOLD then s.hasSpawnToggled || spawnToggles s d
  else if SPAWN_DISTANCE_THRESHOLD * (3/2) < d then false
  else s.hasSpawnToggled

/-- One frame of the master proximity-toggle / lock / unlock logic,
`src/unnamed/part_002` lines 439-509.  The React state setters
(`setIsStringsActive`, `setIsLocked`) are queued during the frame and
applied afterwards, so the lock and unlock blocks read the frame-start
values of `isStringsActive` and `isLocked`; the queued writes cannot
conflict (toggle-off needs dist below 0.08, lock needs dist above 0.55,
lock needs unlocked while unlock needs locked). -/
def masterStep (s : EngineState) (i : HandsInput) : EngineState :=
  match i with
  | .noHands => { s with spawnCounter := 0, lockCounter := 0 }
  | .missingIndex => s
  | .dist d =>
    let toggled := spawnToggles s d
    let active1 := if toggled then !s.stringsActive else s.stringsActive
    let lockedAfterToggle := if toggled && !active1 then false else s.locked
    let lockFires := s.stringsActive && !s.locked &&
      decide (LOCK_DISTANCE_THRESHOLD < d) && decide (LOCK_TIME_REQUIRED ≤ s.lockCounter + 1)
    let lockCounter1 :=
      if s.stringsActive && !s.locked then
        if LOCK_DISTANCE_THRESHOLD < d then
          if LOCK_TIME_REQUIRED ≤ s.lockCounter + 1 then 0 else s.lockCounter + 1
        else 0
      else s.lockCounter
    let unlockFires := s.locked && decide (d < UNLOCK_DISTANCE_THRESHOLD)
    { spawnCounter := spawnCounterNext s d,
      lockCounter := lockCounter1,
      hasSpawnToggled := latchNext s d,
      stringsActive := active1,
      locked := if unlockFires then false else if lockFires then true else lockedAfterToggle }

/-- Fold the state machine over a frame-input sequence. -/
def runEngine (s : EngineState) (inputs : List HandsInput) : EngineState :=
  inputs.foldl masterStep s

/-- Number of frames at which the strings-active mode toggles while the
machine consumes the input sequence. -/
def toggleCount (s : EngineState) : List HandsInput → ℕ
  | [] => 0
  | i :: is =>
    let s2 := masterStep s i
    (if s2.stringsActive = s.stringsActive then 0 else 1) + toggleCount s2 is

theorem masterStep_dist_spawnCounter (s : EngineState) (d : ℚ) :
    (masterStep s (.dist d)).spawnCounter = spawnCounterNext s d := rfl

theorem masterStep_dist_latch (s : EngineState) (d : ℚ) :
    (masterStep s (.dist d)).hasSpawnToggled = latchNext s d := rfl

theorem masterStep_dist_active (s : EngineState) (d : ℚ) :
    (masterStep s (.dist d)).stringsActive =
      (if spawnToggles s d then !s.stringsActive else s.stringsActive) := rfl

theorem masterStep_dist_lockCounter (s : EngineState) (d : ℚ) :
    (masterStep s (.dist d)).lockCounter =
      (if s.stringsActive && !s.locked then
        if LOCK_DISTANCE_THRESHOLD < d then
          if LOCK_TIME_REQUIRED ≤ s.lockCounter + 1 then 0 else s.lockCounter + 1
        else 0
      else s.lockCounter) := rfl

/-- While the spawn latch is set, frames whose two-hand distance stays at
or below 1.5x the spawn threshold never toggle the mode and never clear
the latch. -/
theorem latched_noToggle (ds : List ℚ) : ∀ s : EngineState,
    s.hasSpawnToggled = true →
    (∀ d ∈ ds, d ≤ SPAWN_DISTANCE_THRESHOLD * (3/2)) →
    toggleCount s (ds.map .dist) = 0 ∧
    (runEngine s (ds.map .dist)).hasSpawnToggled = true := by
  induction ds with
  | nil => intro s hl _; exact ⟨rfl, hl⟩
  | cons d tl ih =>
    intro s hl hle
    have htog : spawnToggles s d = false := by
      simp [spawnToggles, hl]
    have hactive : (masterStep s (.dist d)).stringsActive = s.stringsActive := by
      rw [masterStep_dist_active, htog]; rfl
    have hlatch : (masterStep s (.dist d)).hasSpawnToggled = true := by
      rw [masterStep_dist_latch]
      unfold latchNext
      by_cases hc : d < SPAWN_DISTANCE_THRESHOLD
      · simp [hc, hl]
      · have hnf : ¬ SPAWN_DISTANCE_THRESHOLD * (3/2) < d :=
          not_lt.mpr (hle d (List.mem_cons_self d tl))
        simp [hc, hnf, hl]
    have ihr := ih (masterStep s (.dist d)) hlatch
      (fun x hx => hle x (List.mem_cons_of_mem d hx))
    constructor
    · simp only [List.map_cons, toggleCount]
      rw [hactive, if_pos rfl, ihr.1]
    · exact ihr.2

/-- While the spawn latch is re-armed, a run of close frames long enough
to fill the hold counter toggles the mode exactly once and leaves the
latch set. -/
theorem armed_progress (ds : List ℚ) : ∀ s : EngineState,
    s.hasSpawnToggled = false →
    (∀ d ∈ ds, d < SPAWN_DISTANCE_THRESHOLD) →
    SPAWN_TIME_REQUIRED ≤ ds.length + s.spawnCounter → 1 ≤ ds.length →
    toggleCount s (ds.map .dist) = 1 ∧
    (runEngine s (ds.map .dist)).hasSpawnToggled = true := by
  induction ds with
  | nil => intro s _ _ _ h1; exact absurd h1 (by norm_num)
  | cons d tl ih =>
    intro s hl hclose hlen _
    have hd : d < SPAWN_DISTANCE_THRESHOLD := hclose d (List.mem_cons_self d tl)
    by_cases hc : SPAWN_TIME_REQUIRED ≤ s.spawnCounter + 1
    · have htog : spawnToggles s d = true := by
        simp [spawnToggles, hd, hl, hc]
      have hactive : (masterStep s (.dist d)).stringsActive = !s.stringsActive := by
        rw [masterStep_dist_active, htog]; rfl
      have hlatch : (masterStep s (.dist d)).hasSpawnToggled = true := by
        rw [masterStep_dist_latch]
        unfold latchNext
        simp [hd, htog]
      have hwide : SPAWN_DISTANCE_THRESHOLD ≤ SPAWN_DISTANCE_THRESHOLD * (3/2) := by
        norm_num [SPAWN_DISTANCE_THRESHOLD]
      have hrest := latched_noToggle tl (masterStep s (.dist d)) hlatch
        (fun x hx => le_trans (le_of_lt (hclose x (List.mem_cons_of_mem d hx))) hwide)
      refine ⟨?_, hrest.2⟩
      simp only [List.map_cons, toggleCount]
      rw [hactive, hrest.1]
      cases s.stringsActive <;> simp
    · have htog : spawnToggles s d = false := by
        simp [spawnToggles, hc]
      have hactive : (masterStep s (.dist d)).stringsActive = s.stringsActive := by
        rw [masterStep_dist_active, htog]; rfl
      have hlatch : (masterStep s (.dist d)).hasSpawnToggled = false := by
        rw [masterStep_dist_latch]
        unfold latchNext
        simp [hd, hl, hc, htog]
      have hcounter : (masterStep s (.dist d)).spawnCounter = s.spawnCounter + 1 := by
        rw [masterStep_dist_spawnCounter]
        unfold spawnCounterNext
        simp [hd, hl, hc]
      have htl_len : SPAWN_TIME_REQUIRED ≤ tl.length + (masterStep s (.dist d)).spawnCounter := by
        rw [hcounter]
        simp only [List.length_cons] at hlen
        omega
      have htl_ne : 1 ≤ tl.length := by
        rcases tl with _ | ⟨x, xs⟩
        · exfalso
          simp only [List.length_nil, List.length_cons, SPAWN_TIME_REQUIRED] at hlen hc
          omega
        · simp
      have ihr := ih (masterStep s (.dist d)) hlatch
        (fun x hx => hclose x (List.mem_cons_of_mem d hx)) htl_len htl_ne
      constructor
      · simp only [List.map_cons, toggleCount]
        rw [hactive, if_pos rfl, ihr.1]
      · exact ihr.2

/-- Claim C1: with two hands tracked, the spawn latch re-armed and the
two-hand index-fingertip distance below 0.08 for 60 consecutive frames,
the machine toggles the strings-active mode exactly once; afterwards, as
long as every frame's distance stays at or below 1.5 x 0.08 = 0.12, no
further toggle occurs however long the hands stay close; and any frame
whose distance exceeds 0.12 re-arms the latch. -/
theorem C1 (s : EngineState) (ds rest : List ℚ)
    (hlatch : s.hasSpawnToggled = false)
    (hlen : ds.length = 60)
    (hclose : ∀ d ∈ ds, d < SPAWN_DISTANCE_THRESHOLD)
    (hrest : ∀ d ∈ rest, d ≤ SPAWN_DISTANCE_THRESHOLD * (3/2)) :
    toggleCount s (ds.map .dist) = 1 ∧
    toggleCount (runEngine s (ds.map .dist)) (rest.map .dist) = 0 ∧
    (∀ (s2 : EngineState) (d : ℚ), SPAWN_DISTANCE_THRESHOLD * (3/2) < d →
      (masterStep s2 (.dist d)).hasSpawnToggled = false) := by
  have hp := armed_progress ds s hlatch hclose
    (by rw [hlen]; norm_num [SPAWN_TIME_REQUIRED]) (by rw [hlen]; norm_num)
  have hq := latched_noToggle rest (runEngine s (ds.map .dist)) hp.2 hrest
  refine ⟨hp.1, hq.1, ?_⟩
  intro s2 d hfar
  rw [masterStep_dist_latch]
  unfold latchNext
  have hnc : ¬ d < SPAWN_DISTANCE_THRESHOLD := by
    norm_num [SPAWN_DISTANCE_THRESHOLD] at hfar ⊢
    linarith
  simp [hnc, hfar]

/-- Claim C1 witness: the spec's end-to-end scenario — from the initial
state, 60 frames at normalized distance 0.05 toggle the mode exactly
once, and 5 further frames of the same closeness produce no further
toggle. -/
theorem C1_witness :
    toggleCount ⟨0, 0, false, false, false⟩
      ((List.replicate 60 ((5:ℚ)/100)).map HandsInput.dist) = 1 ∧
    toggleCount
      (runEngine ⟨0, 0, false, false, false⟩
        ((List.replicate 60 ((5:ℚ)/100)).map HandsInput.dist))
      ((List.replicate 5 ((5:ℚ)/100)).map HandsInput.dist) = 0 ∧
    (masterStep ⟨0, 0, true, true, false⟩ (.dist (13/100))).hasSpawnToggled = false := by
  have h := C1 ⟨0, 0, false, false, false⟩ (List.replicate 60 ((5:ℚ)/100))
    (List.replicate 5 ((5:ℚ)/100)) rfl (by simp)
    (fun d hd => by rw [List.eq_of_mem_replicate hd]; norm_num [SPAWN_DISTANCE_THRESHOLD])
    (fun d hd => by rw [List.eq_of_mem_replicate hd]; norm_num [SPAWN_DISTANCE_THRESHOLD])
  exact ⟨h.1, h.2.1, h.2.2 ⟨0, 0, true, true, false⟩ (13/100)
    (by norm_num [SPAWN_DISTANCE_THRESHOLD])⟩

/-- Claim C5 counterexample: the lock hold counter does NOT decay by 5 —
in a frame with two hands tracked (distance 0.3), strings active, not
locked, and lock counter 10, the code resets the lock counter to 0
(line 496), not to max(0, 10 - 5) = 5. -/
theorem C5_counterexample :
    (masterStep ⟨10, 10, false, true, false⟩ (.dist (3/10))).lockCounter = 0 ∧
    (masterStep ⟨10, 10, false, true, false⟩ (.dist (3/10))).lockCounter ≠ 10 - 5 := by
  have h : (masterStep ⟨10, 10, false, true, false⟩ (.dist (3/10))).lockCounter = 0 := by
    rw [masterStep_dist_lockCounter]
    norm_num [LOCK_DISTANCE_THRESHOLD]
  exact ⟨h, by rw [h]; norm_num⟩

/-- Claim C5 (amended): when two hands are tracked but the triggering
condition fails, the spawn hold counter decays by 5 per frame clamped at
0 (truncated ℕ subtraction), while the lock hold counter does not decay:
whenever locking is being evaluated (strings active, not locked) and the
wide-distance condition fails, it is reset to 0. -/
theorem C5_amended (s : EngineState) (d : ℚ) :
    (¬ d < SPAWN_DISTANCE_THRESHOLD →
      (masterStep s (.dist d)).spawnCounter = s.spawnCounter - 5) ∧
    (s.stringsActive = true → s.locked = false → ¬ LOCK_DISTANCE_THRESHOLD < d →
      (masterStep s (.dist d)).lockCounter = 0) := by
  constructor
  · intro hd
    rw [masterStep_dist_spawnCounter]
    unfold spawnCounterNext
    rw [if_neg hd]
  · intro ha hlk hd
    rw [masterStep_dist_lockCounter]
    simp [ha, hlk, hd]

/-- Claim C5 amended witness: at spawn counter 7 and distance 0.2 the
spawn counter decays to 7 - 5, and at lock counter 4 (strings active,
unlocked, distance 0.2) the lock counter resets to 0. -/
theorem C5_amended_witness :
    (masterStep ⟨7, 0, false, false, false⟩ (.dist (2/10))).spawnCounter = 7 - 5 ∧
    (masterStep ⟨3, 4, false, true, false⟩ (.dist (2/10))).lockCounter = 0 :=
  ⟨(C5_amended ⟨7, 0, false, false, false⟩ (2/10)).1
      (by norm_num [SPAWN_DISTANCE_THRESHOLD]),
    (C5_amended ⟨3, 4, false, true, false⟩ (2/10)).2 rfl rfl
      (by norm_num [LOCK_DISTANCE_THRESHOLD])⟩

/-- Vibration decay constant of the pluck variants,
`src/unnamed/part_002` line 46 and `src/unnamed/part_003` line 49. -/
def VIBRATION_DECAY : ℚ := 85/100

/-- Vibration decay constant of the guitar/strum variant,
`src/unnamed/part_003` line 1111. -/
def GUITAR_VIBRATION_DECAY : ℚ := 88/100

/-- Per-frame decay of the pluck variants' vibration array,
`src/unnamed/part_002` line 428 and `src/unnamed/part_003` line 467:
`stringVibrationRef.current.map(v => Math.max(0, v * VIBRATION_DECAY))`. -/
def decayFrame (vib : List ℚ) : List ℚ :=
  vib.map (fun v => max 0 (v * VIBRATION_DECAY))

/-- Per-frame decay of one guitar string's vibration,
`src/unnamed/part_003` line 1871:
`s.vibration = Math.max(0, s.vibration * VIBRATION_DECAY)` with the
guitar variant's 0.88 constant. -/
def guitarDecay (v : ℚ) : ℚ :=
  max 0 (v * GUITAR_VIBRATION_DECAY)

/-- Claim C8: in every frame without a hit, each string slot's vibration
amplitude is mapped to max(0, v * d) with d < 1 (0.85 in the pluck
variants, 0.88 in the strum variant), so from a nonnegative amplitude the
new amplitude is still nonnegative and never larger. -/
theorem C8 (vib : List ℚ) (i : ℕ) (v : ℚ)
    (hv : vib[i]? = some v) (hnn : 0 ≤ v) :
    (decayFrame vib)[i]? = some (max 0 (v * VIBRATION_DECAY)) ∧
    max 0 (v * VIBRATION_DECAY) ≤ v ∧ 0 ≤ max 0 (v * VIBRATION_DECAY) ∧
    guitarDecay v ≤ v ∧ 0 ≤ guitarDecay v ∧
    VIBRATION_DECAY < 1 ∧ GUITAR_VIBRATION_DECAY < 1 := by
  refine ⟨?_, ?_, le_max_left 0 _, ?_, le_max_left 0 _, by norm_num [VIBRATION_DECAY],
    by norm_num [GUITAR_VIBRATION_DECAY]⟩
  · simp [decayFrame, hv]
  · have h : v * VIBRATION_DECAY ≤ v :=
      mul_le_of_le_one_right hnn (by norm_num [VIBRATION_DECAY])
    exact max_le hnn h
  · have h : v * GUITAR_VIBRATION_DECAY ≤ v :=
      mul_le_of_le_one_right hnn (by norm_num [GUITAR_VIBRATION_DECAY])
    unfold guitarDecay
    exact max_le hnn h

/-- Claim C8 witness: on the concrete vibration array [20, 0, 5], slot 0
decays to max(0, 20 * 0.85) = 17, stays nonnegative and does not grow. -/
theorem C8_witness :
    (decayFrame [20, 0, 5])[0]? = some (max 0 (20 * VIBRATION_DECAY)) ∧
    max 0 ((20:ℚ) * VIBRATION_DECAY) ≤ 20 :=
  ⟨(C8 [20, 0, 5] 0 20 rfl (by norm_num)).1,
    (C8 [20, 0, 5] 0 20 rfl (by norm_num)).2.1⟩

/-- Virtual string segment handed to the hit test: `{p1, p2, index}` of
`currentStringLines` (`src/unnamed/part_002` line 430). -/
structure StringLine where
  p1 : Point
  p2 : Point
  index : ℤ
deriving DecidableEq

/-- Pluck event payload: struck string slot and the fingertip's
normalized horizontal position (the two data-bearing arguments of
`playPluckSound(landmarks[tipIdx].x, line.index * 3, ...)`). -/
structure PluckEvent where
  stringIndex : ℤ
  fingerX : ℚ
deriving DecidableEq

/-- State threaded through one frame of the pluck block: the
`currentFingerPos` map being built, the engine-wide `lastPluckTimeRef`
timestamp, and the pluck events emitted this frame. -/
structure DetectState where
  fingerMap : List ((ℕ × ℕ) × Point)
  lastPluck : ℤ
  events : List PluckEvent
deriving DecidableEq

/-- Fingertip landmark indices checked by the detector,
`[8, 12, 16, 20]` of `src/unnamed/part_002` line 639 (thumb excluded). -/
def tipIndices : List ℕ := [8, 12, 16, 20]

/-- Lookup in the previous-position map keyed by (hand index, landmark
index) — the embedding of `prevFingerPosRef.current.get('h&i-f&t')`. -/
def lookupPos (k : ℕ × ℕ) : List ((ℕ × ℕ) × Point) → Option Point
  | [] => none
  | (k2, p) :: rest => if k2 = k then some p else lookupPos k rest

/-- The cooldown gate of `src/unnamed/part_002` line 649 / line 677:
accept iff `now - lastPluckTime > cooldown` (strict), and on acceptance
set the engine-wide timestamp to `now`.  Returns (accepted, new
timestamp).  The same gate with `STRUM_COOLDOWN` is
`src/unnamed/part_003` lines 2120/2178. -/
def pluckGate (cooldown last now : ℤ) : Bool × ℤ :=
  if now - last > cooldown then (true, now) else (false, last)

/-- Inner loop over the string lines for one fingertip motion segment,
`src/unnamed/part_002` lines 647-680: on geometric intersection, run the
cooldown gate; on acceptance append a pluck event. -/
def checkLines (cooldown now : ℤ) (prev cur : Point) (fx : ℚ)
    (lines : List StringLine) (st : ℤ × List PluckEvent) : ℤ × List PluckEvent :=
  lines.foldl
    (fun st line =>
      if segmentsIntersect line.p1 line.p2 prev cur then
        let g := pluckGate cooldown st.1 now
        (g.2, if g.1 then st.2 ++ [⟨line.index, fx⟩] else st.2)
      else st)
    st

/-- One fingertip of one hand, `src/unnamed/part_002` lines 639-682:
skip a missing landmark, unconditionally record the current screen
position in the new map, then hit-test the previous-to-current motion
segment against every string line (only when a previous position
exists). -/
def processTip (W H : ℚ) (cooldown now : ℤ) (lines : List StringLine)
    (prevMap : List ((ℕ × ℕ) × Point)) (hi : ℕ) (hand : List Point)
    (st : DetectState) (ti : ℕ) : DetectState :=
  match hand[ti]? with
  | none => st
  | some lm =>
    let p : Point := ⟨lm.x * W, lm.y * H⟩
    let st1 : DetectState := { st with fingerMap := st.fingerMap ++ [((hi, ti), p)] }
    match lookupPos (hi, ti) prevMap with
    | none => st1
    | some prev =>
      let r := checkLines cooldown now prev p lm.x lines (st1.lastPluck, st1.events)
      { st1 with lastPluck := r.1, events := r.2 }

/-- All four tracked fingertips of one hand. -/
def processHand (W H : ℚ) (cooldown now : ℤ) (lines : List StringLine)
    (prevMap : List ((ℕ × ℕ) × Point)) (hi : ℕ) (hand : List Point)
    (st : DetectState) : DetectState :=
  tipIndices.foldl (processTip W H cooldown now lines prevMap hi hand) st

/-- The `landmarksData.forEach((landmarks, handIndex) => ...)` loop with
an explicit hand-index counter. -/
def detectLoop (W H : ℚ) (cooldown now : ℤ) (lines : List StringLine)
    (prevMap : List ((ℕ × ℕ) × Point)) : ℕ → List (List Point) → DetectState → DetectState
  | _, [], st => st
  | hi, hand :: rest, st =>
    detectLoop W H cooldown now lines prevMap (hi + 1) rest
      (processHand W H cooldown now lines prevMap hi hand st)

/-- Whole-frame pluck block, `src/unnamed/part_002` lines 635-685 (the
rhythm variant, `src/unnamed/part_003` lines 752-861, shares the same
map/cooldown/event structure): `now` is sampled once per frame, the
finger map starts empty and replaces the previous map wholesale at
line 684, and one engine-wide timestamp is threaded through every hand,
fingertip and string. -/
def pluckDetect (hands : List (List Point)) (lines : List StringLine)
    (prevMap : List ((ℕ × ℕ) × Point)) (last now : ℤ) (W H : ℚ) : DetectState :=
  detectLoop W H PLUCK_COOLDOWN now lines prevMap 0 hands ⟨[], last, []⟩

/-- Positions that the detector is specified to store for one hand: the
current screen position of each present fingertip landmark among
`tipIndices`. -/
def tipCollect (W H : ℚ) (hi : ℕ) (hand : List Point) : List ((ℕ × ℕ) × Point) :=
  tipIndices.filterMap
    (fun ti => (hand[ti]?).map (fun lm => ((hi, ti), (⟨lm.x * W, lm.y * H⟩ : Point))))

/-- Positions the detector is specified to store for all hands, with
hand indices starting at `hi`. -/
def collectFrom (W H : ℚ) : ℕ → List (List Point) → List ((ℕ × ℕ) × Point)
  | _, [] => []
  | hi, hand :: rest => tipCollect W H hi hand ++ collectFrom W H (hi + 1) rest

theorem processTip_fingerMap (W H : ℚ) (cooldown now : ℤ) (lines : List StringLine)
    (prevMap : List ((ℕ × ℕ) × Point)) (hi : ℕ) (hand : List Point)
    (st : DetectState) (ti : ℕ) :
    (processTip W H cooldown now lines prevMap hi hand st ti).fingerMap =
      st.fingerMap ++
        ((hand[ti]?).map (fun lm => ((hi, ti), (⟨lm.x * W, lm.y * H⟩ : Point)))).toList := by
  unfold processTip
  cases h : hand[ti]? with
  | none => simp
  | some lm =>
    cases hp : lookupPos (hi, ti) prevMap <;> simp [h, hp]

theorem processHand_fingerMap (W H : ℚ) (cooldown now : ℤ) (lines : List StringLine)
    (prevMap : List ((ℕ × ℕ) × Point)) (hi : ℕ) (hand : List Point)
    (st : DetectState) :
    (processHand W H cooldown now lines prevMap hi hand st).fingerMap =
      st.fingerMap ++ tipCollect W H hi hand := by
  unfold processHand tipCollect tipIndices
  simp only [List.foldl_cons, List.foldl_nil]
  rw [processTip_fingerMap, processTip_fingerMap, processTip_fingerMap,
    processTip_fingerMap]
  rcases h8 : hand[8]? with _ | l8 <;> rcases h12 : hand[12]? with _ | l12 <;>
    rcases h16 : hand[16]? with _ | l16 <;> rcases h20 : hand[20]? with _ | l20 <;>
    simp [h8, h12, h16, h20, List.filterMap_cons]

theorem detectLoop_fingerMap (W H : ℚ) (cooldown now : ℤ) (lines : List StringLine)
    (prevMap : List ((ℕ × ℕ) × Point)) :
    ∀ (hands : List (List Point)) (hi : ℕ) (st : DetectState),
    (detectLoop W H cooldown now lines prevMap hi hands st).fingerMap =
      st.fingerMap ++ collectFrom W H hi hands := by
  intro hands
  induction hands with
  | nil => intro hi st; simp [detectLoop, collectFrom]
  | cons hand rest ih =>
    intro hi st
    show (detectLoop W H cooldown now lines prevMap (hi + 1) rest
      (processHand W H cooldown now lines prevMap hi hand st)).fingerMap = _
    rw [ih, processHand_fingerMap]
    simp [collectFrom, List.append_assoc]

theorem collectFrom_entries (W H : ℚ) :
    ∀ (hands : List (List Point)) (hi : ℕ) (e : (ℕ × ℕ) × Point),
    e ∈ collectFrom W H hi hands →
    ∃ (k : ℕ) (hand : List Point) (lm : Point),
      hands[k]? = some hand ∧ e.1.1 = hi + k ∧ e.1.2 ∈ tipIndices ∧
      hand[e.1.2]? = some lm ∧ e.2 = Point.mk (lm.x * W) (lm.y * H) := by
  intro hands
  induction hands with
  | nil => intro hi e he; simp [collectFrom] at he
  | cons hand rest ih =>
    intro hi e he
    rcases List.mem_append.mp he with h | h
    · obtain ⟨ti, hti, hmap⟩ := List.mem_filterMap.mp h
      cases hlm : hand[ti]? with
      | none => rw [hlm] at hmap; cases hmap
      | some lm =>
        rw [hlm] at hmap
        simp only [Option.map_some', Option.some.injEq] at hmap
        subst hmap
        exact ⟨0, hand, lm, by simp, by simp, hti, hlm, rfl⟩
    · obtain ⟨k, hand2, lm, hk, he1, he2, he3, he4⟩ := ih (hi + 1) e h
      refine ⟨k + 1, hand2, lm, by simpa using hk, by omega, he2, he3, he4⟩

/-- Claim C6: in every execution of the pluck block with hand landmarks
present, the new previous-position map is exactly the collection of the
current screen positions of every present tracked fingertip id (hand
index, landmark index in 8/12/16/20) — independent of the string lines,
of the old map and of the cooldown state, i.e. whether or not any hit
occurred — and every stored entry corresponds to a fingertip tracked
this frame, so ids whose landmark disappeared are dropped. -/
theorem C6 (hands : List (List Point)) (lines : List StringLine)
    (prevMap : List ((ℕ × ℕ) × Point)) (last now : ℤ) (W H : ℚ) :
    (pluckDetect hands lines prevMap last now W H).fingerMap =
      collectFrom W H 0 hands ∧
    (∀ e ∈ (pluckDetect hands lines prevMap last now W H).fingerMap,
      ∃ (hand : List Point) (lm : Point),
        hands[e.1.1]? = some hand ∧ e.1.2 ∈ tipIndices ∧
        hand[e.1.2]? = some lm ∧ e.2 = Point.mk (lm.x * W) (lm.y * H)) := by
  have hmap : (pluckDetect hands lines prevMap last now W H).fingerMap =
      collectFrom W H 0 hands := by
    unfold pluckDetect
    rw [detectLoop_fingerMap]
    rfl
  refine ⟨hmap, ?_⟩
  intro e he
  rw [hmap] at he
  obtain ⟨k, hand, lm, hk, he1, he2, he3, he4⟩ := collectFrom_entries W H hands 0 e he
  rw [he1, Nat.zero_add]
  exact ⟨hand, lm, hk, he2, he3, he4⟩

/-- Invariant for the per-frame gate state (timestamp, emitted events):
at most one event so far, and once an event exists the engine-wide
timestamp equals this frame's `now`. -/
def GateInv (now : ℤ) (st : ℤ × List PluckEvent) : Prop :=
  st.2.length ≤ 1 ∧ (st.2 ≠ [] → st.1 = now)

theorem foldl_preserves {α β : Type} (P : α → Prop) (f : α → β → α)
    (hf : ∀ a b, P a → P (f a b)) :
    ∀ (l : List β) (a : α), P a → P (l.foldl f a) := by
  intro l
  induction l with
  | nil => intro a ha; exact ha
  | cons b bs ih => intro a ha; exact ih (f a b) (hf a b ha)

theorem checkLines_inv (cooldown now : ℤ) (prev cur : Point) (fx : ℚ)
    (hc : 0 ≤ cooldown) (lines : List StringLine) (st : ℤ × List PluckEvent)
    (h : GateInv now st) : GateInv now (checkLines cooldown now prev cur fx lines st) := by
  unfold checkLines
  refine foldl_preserves (GateInv now) _ ?_ lines st h
  intro a line ha
  by_cases hseg : segmentsIntersect line.p1 line.p2 prev cur
  · simp only [hseg, if_true]
    unfold pluckGate
    by_cases hg : now - a.1 > cooldown
    · have hempty : a.2 = [] := by
        by_contra hne
        have h1 := ha.2 hne
        rw [h1] at hg
        omega
      simp only [hg, if_true]
      constructor
      · simp [hempty]
      · intro _; rfl
    · simpa only [hg, if_false] using ha
  · simpa only [hseg, if_false] using ha

/-- Invariant `GateInv` lifted to the full detector state. -/
def DetInv (now : ℤ) (st : DetectState) : Prop :=
  st.events.length ≤ 1 ∧ (st.events ≠ [] → st.lastPluck = now)

theorem processTip_inv (W H : ℚ) (cooldown now : ℤ) (lines : List StringLine)
    (prevMap : List ((ℕ × ℕ) × Point)) (hi : ℕ) (hand : List Point)
    (hc : 0 ≤ cooldown) (st : DetectState) (ti : ℕ) (h : DetInv now st) :
    DetInv now (processTip W H cooldown now lines prevMap hi hand st ti) := by
  unfold processTip
  cases hlm : hand[ti]? with
  | none => exact h
  | some lm =>
    cases hp : lookupPos (hi, ti) prevMap with
    | none => exact h
    | some prev =>
      have hg := checkLines_inv cooldown now prev ⟨lm.x * W, lm.y * H⟩ lm.x hc lines
        (st.lastPluck, st.events) h
      exact hg

theorem detectLoop_inv (W H : ℚ) (cooldown now : ℤ) (lines : List StringLine)
    (prevMap : List ((ℕ × ℕ) × Point)) (hc : 0 ≤ cooldown) :
    ∀ (hands : List (List Point)) (hi : ℕ) (st : DetectState), DetInv now st →
    DetInv now (detectLoop W H cooldown now lines prevMap hi hands st) := by
  intro hands
  induction hands with
  | nil => intro hi st h; exact h
  | cons hand rest ih =>
    intro hi st h
    refine ih (hi + 1) _ ?_
    exact foldl_preserves (DetInv now) _
      (fun a b ha => processTip_inv W H cooldown now lines prevMap hi hand hc a b ha)
      tipIndices st h

/-- Claim C10: within any single frame of the pluck block, at most one
pluck event is accepted across all hands, fingertips and strings — the
block samples the clock once per frame, an accepted hit sets the
engine-wide timestamp to that same `now`, and every later check in the
frame then fails the strict `now - lastPluckTime > 150` test. -/
theorem C10 (hands : List (List Point)) (lines : List StringLine)
    (prevMap : List ((ℕ × ℕ) × Point)) (last now : ℤ) (W H : ℚ) :
    (pluckDetect hands lines prevMap last now W H).events.length ≤ 1 ∧
    ((pluckDetect hands lines prevMap last now W H).events ≠ [] →
      (pluckDetect hands lines prevMap last now W H).lastPluck = now) := by
  have h0 : DetInv now (⟨[], last, []⟩ : DetectState) := by
    constructor
    · simp
    · intro hne; exact absurd rfl hne
  exact detectLoop_inv W H PLUCK_COOLDOWN now lines prevMap
    (by norm_num [PLUCK_COOLDOWN]) hands 0 ⟨[], last, []⟩ h0

/-- Claim C4: the pluck/strum cooldown is one engine-wide timestamp (the
single `lastPluck` value threaded by `pluckDetect` through every string
and fingertip).  If a qualifying intersection at time `t` passes the
150 ms gate, it is accepted and sets the timestamp to `t`; a second
qualifying intersection 100 ms later is rejected, while one 200 ms later
is accepted; and the strum variant uses the same gate with the 1100 ms
cooldown (accept iff `now - last > 1100`). -/
theorem C4 (last t : ℤ) (h : t - last > PLUCK_COOLDOWN) :
    (pluckGate PLUCK_COOLDOWN last t).1 = true ∧
    (pluckGate PLUCK_COOLDOWN last t).2 = t ∧
    (pluckGate PLUCK_COOLDOWN t (t + 100)).1 = false ∧
    (pluckGate PLUCK_COOLDOWN t (t + 200)).1 = true ∧
    (∀ lastS nowS : ℤ,
      (pluckGate STRUM_COOLDOWN lastS nowS).1 = true ↔ nowS - lastS > STRUM_COOLDOWN) := by
  refine ⟨?_, ?_, ?_, ?_, ?_⟩
  · simp [pluckGate, h]
  · simp [pluckGate, h]
  · show (pluckGate PLUCK_COOLDOWN t (t + 100)).1 = false
    unfold pluckGate PLUCK_COOLDOWN
    rw [if_neg (by omega)]
  · show (pluckGate PLUCK_COOLDOWN t (t + 200)).1 = true
    unfold pluckGate PLUCK_COOLDOWN
    rw [if_pos (by omega)]
  · intro lastS nowS
    unfold pluckGate
    by_cases hg : nowS - lastS > STRUM_COOLDOWN <;> simp [hg]

/-- Claim C4 witness: from timestamp 0, an intersection at t = 151 passes
the 150 ms gate (and one at 1000 would too); the follow-ups at 251 and
351 behave as claimed, and the strum gate instance at 0/1200 accepts. -/
theorem C4_witness :
    (pluckGate PLUCK_COOLDOWN 0 151).1 = true ∧
    (pluckGate PLUCK_COOLDOWN 151 (151 + 100)).1 = false ∧
    (pluckGate PLUCK_COOLDOWN 151 (151 + 200)).1 = true ∧
    (pluckGate STRUM_COOLDOWN 0 1200).1 = true := by
  have h := C4 0 151 (by norm_num [PLUCK_COOLDOWN])
  exact ⟨h.1, h.2.2.1, h.2.2.2.1, (h.2.2.2.2 0 1200).mpr (by norm_num [STRUM_COOLDOWN])⟩

/-- Claim C10 witness: the spec's end-to-end crossing — one fingertip
moving from (100,200) to (100,50) across the string (0,125)-(200,125) at
time 1000 with the cooldown idle since 0 — yields exactly one accepted
event, and the engine-wide timestamp is set to that frame's `now`. -/
theorem C10_witness :
    (pluckDetect [[⟨0, 0⟩, ⟨0, 0⟩, ⟨0, 0⟩, ⟨0, 0⟩, ⟨0, 0⟩, ⟨0, 0⟩, ⟨0, 0⟩, ⟨0, 0⟩, ⟨100, 50⟩]]
      [⟨⟨0, 125⟩, ⟨200, 125⟩, 0⟩] [((0, 8), ⟨100, 200⟩)] 0 1000 1 1).events.length ≤ 1 ∧
    (pluckDetect [[⟨0, 0⟩, ⟨0, 0⟩, ⟨0, 0⟩, ⟨0, 0⟩, ⟨0, 0⟩, ⟨0, 0⟩, ⟨0, 0⟩, ⟨0, 0⟩, ⟨100, 50⟩]]
      [⟨⟨0, 125⟩, ⟨200, 125⟩, 0⟩] [((0, 8), ⟨100, 200⟩)] 0 1000 1 1).lastPluck = 1000 := by
  have hev : (pluckDetect
      [[⟨0, 0⟩, ⟨0, 0⟩, ⟨0, 0⟩, ⟨0, 0⟩, ⟨0, 0⟩, ⟨0, 0⟩, ⟨0, 0⟩, ⟨0, 0⟩, ⟨100, 50⟩]]
      [⟨⟨0, 125⟩, ⟨200, 125⟩, 0⟩] [((0, 8), ⟨100, 200⟩)] 0 1000 1 1).events =
      [⟨0, 100⟩] := by
    norm_num [pluckDetect, detectLoop, processHand, processTip, tipIndices, lookupPos,
      checkLines, pluckGate, PLUCK_COOLDOWN, segmentsIntersect, ccw]
  have h := C10 [[⟨0, 0⟩, ⟨0, 0⟩, ⟨0, 0⟩, ⟨0, 0⟩, ⟨0, 0⟩, ⟨0, 0⟩, ⟨0, 0⟩, ⟨0, 0⟩, ⟨100, 50⟩]]
    [⟨⟨0, 125⟩, ⟨200, 125⟩, 0⟩] [((0, 8), ⟨100, 200⟩)] 0 1000 1 1
  exact ⟨h.1, h.2 (by rw [hev]; simp)⟩

/-- Claim C6 witness: in the same concrete frame, the stored entry for
fingertip id (hand 0, landmark 8) is exactly its current screen
position, as the theorem's entry characterization instantiates. -/
theorem C6_witness :
    ∃ (hand : List Point) (lm : Point),
      [[(⟨0, 0⟩ : Point), ⟨0, 0⟩, ⟨0, 0⟩, ⟨0, 0⟩, ⟨0, 0⟩, ⟨0, 0⟩, ⟨0, 0⟩, ⟨0, 0⟩,
        ⟨100, 50⟩]][(0 : ℕ)]? = some hand ∧ (8 : ℕ) ∈ tipIndices ∧
      hand[(8 : ℕ)]? = some lm ∧
      (⟨100, 50⟩ : Point) = Point.mk (lm.x * 1) (lm.y * 1) := by
  have h := (C6 [[⟨0, 0⟩, ⟨0, 0⟩, ⟨0, 0⟩, ⟨0, 0⟩, ⟨0, 0⟩, ⟨0, 0⟩, ⟨0, 0⟩, ⟨0, 0⟩, ⟨100, 50⟩]]
    [⟨⟨0, 125⟩, ⟨200, 125⟩, 0⟩] [((0, 8), ⟨100, 200⟩)] 0 1000 1 1).2
    ((0, 8), ⟨100, 50⟩)
    (by norm_num [pluckDetect, detectLoop, processHand, processTip, tipIndices, lookupPos,
      checkLines, pluckGate, PLUCK_COOLDOWN, segmentsIntersect, ccw])
  exact h

/-- Judgment result type, `JudgeResult` of `src/unnamed/part_005`. -/
inductive JudgeResult where
  | perfect
  | good
  | miss
deriving DecidableEq

/-- One chart note, `SongNote` of `src/unnamed/part_005`: time (ms) at
which it reaches the judgment line, and its string slot (-1, 0 or 1). -/
structure SongNote where
  time : ℚ
  string : ℤ
deriving DecidableEq

/-- Song definition, `Song` of `src/unnamed/part_005` (identification
and audio-url fields omitted; only the fields the note manager reads). -/
structure Song where
  duration : ℚ
  bpm : ℚ
  leadTime : ℚ
  notes : List SongNote
deriving DecidableEq

/-- Runtime note state, `ActiveNote` of `src/unnamed/part_005`. -/
structure ActiveNote where
  id : ℕ
  songNote : SongNote
  progress : ℚ
  hit : Bool
  missed : Bool
deriving DecidableEq

/-- Constant `NOTE_JUDGE_WINDOWS.PERFECT` of `src/unnamed/part_008` line 11. -/
def NOTE_JUDGE_PERFECT : ℚ := 8/100

/-- Constant `NOTE_JUDGE_WINDOWS.GOOD` of `src/unnamed/part_008` line 12. -/
def NOTE_JUDGE_GOOD : ℚ := 15/100

/-- Constant `NOTE_MISS_THRESHOLD` of `src/unnamed/part_008` line 16. -/
def NOTE_MISS_THRESHOLD : ℚ := 13/10

/-- State of the `NoteManager` class, `src/unnamed/part_008` lines 19-22. -/
structure NMState where
  song : Option Song
  activeNotes : List ActiveNote
  nextNoteIndex : ℕ
  noteIdCounter : ℕ
deriving DecidableEq

/-- The while-loop of `NoteManager.update` step 1 (lines 52-68): spawn an
active note (progress 0, not hit, not missed, fresh id) for each upcoming
song note whose appear time `time - leadTime` has been reached, in chart
order, stopping at the first note not yet due.  Returns the new notes and
the advanced id counter; the caller advances `nextNoteIndex` by the
number spawned. -/
def spawnLoop (lead t : ℚ) : ℕ → List SongNote → List ActiveNote × ℕ
  | idCounter, [] => ([], idCounter)
  | idCounter, sn :: rest =>
    if t ≥ sn.time - lead then
      let r := spawnLoop lead t (idCounter + 1) rest
      (⟨idCounter, sn, 0, false, false⟩ :: r.1, r.2)
    else ([], idCounter)

/-- The per-note body of `NoteManager.update` step 2 (lines 71-81): notes
already hit or missed are left untouched (their progress is frozen);
otherwise progress becomes `(t - (time - leadTime)) / leadTime`, and the
note is marked missed when that exceeds `1 + GOOD`. -/
def updateNoteProgress (lead t : ℚ) (n : ActiveNote) : ActiveNote :=
  if n.hit || n.missed then n
  else
    let p := (t - (n.songNote.time - lead)) / lead
    if p > 1 + NOTE_JUDGE_GOOD then { n with progress := p, missed := true }
    else { n with progress := p }

/-- Method `NoteManager.update`, `src/unnamed/part_008` lines 46-89: spawn due
notes, update progress / mark misses, then keep exactly the notes whose
stored progress is below `NOTE_MISS_THRESHOLD`.  Returns the new manager
state and the returned active-note list (they coincide). -/
def noteUpdate (s : NMState) (t : ℚ) : NMState × List ActiveNote :=
  match s.song with
  | none => (s, [])
  | some song =>
    let lead := song.leadTime
    let r := spawnLoop lead t s.noteIdCounter (song.notes.drop s.nextNoteIndex)
    let all := s.activeNotes ++ r.1
    let upd := all.map (updateNoteProgress lead t)
    let kept := upd.filter (fun n => n.progress < NOTE_MISS_THRESHOLD)
    ({ s with
        activeNotes := kept
        nextNoteIndex := s.nextNoteIndex + r.1.length
        noteIdCounter := r.2 }, kept)

/-- The candidate filter of `NoteManager.tryHitNote`, lines 98-105: notes
on the requested string, not hit, not missed, with progress inside
`[1 - GOOD, 1 + GOOD]`. -/
def judgeCandidates (notes : List ActiveNote) (stringIndex : ℤ) : List ActiveNote :=
  notes.filter (fun n =>
    decide (n.songNote.string = stringIndex) && !n.hit && !n.missed &&
    decide (n.progress ≥ 1 - NOTE_JUDGE_GOOD) && decide (n.progress ≤ 1 + NOTE_JUDGE_GOOD))

/-- The reducer of lines 110-112: keep whichever note's progress is
strictly closer to 1 (ties keep the earlier accumulator). -/
def closerNote (closest current : ActiveNote) : ActiveNote :=
  if |current.progress - 1| < |closest.progress - 1| then current else closest

/-- Method `NoteManager.tryHitNote`, `src/unnamed/part_008` lines 96-129:
select among the candidates the note closest to the judgment line and
classify its deviation (the source also marks the selected note
`hit = true` by reference; no claim concerns that write). -/
def tryHitNote (notes : List ActiveNote) (stringIndex : ℤ) :
    Option (ActiveNote × JudgeResult) :=
  match judgeCandidates notes stringIndex with
  | [] => none
  | c :: cs =>
    let note := cs.foldl closerNote c
    let deviation := |note.progress - 1|
    some (note,
      if deviation ≤ NOTE_JUDGE_PERFECT then .perfect
      else if deviation ≤ NOTE_JUDGE_GOOD then .good
      else .miss)

/-- The pluck-dispatch judgment of the rhythm variant,
`src/unnamed/part_003` lines 775-789: a `null` from `tryHitNote` is
treated as a forced miss (miss-tier feedback), otherwise the returned
result is used. -/
def rhythmJudge (r : Option (ActiveNote × JudgeResult)) : JudgeResult :=
  match r with
  | none => .miss
  | some pr => pr.2

theorem foldl_closerNote_mem (cs : List ActiveNote) :
    ∀ c : ActiveNote, cs.foldl closerNote c ∈ c :: cs := by
  induction cs with
  | nil => intro c; simp
  | cons b bs ih =>
    intro c
    simp only [List.foldl_cons]
    rcases List.mem_cons.mp (ih (closerNote c b)) with h1 | h1
    · rw [h1]
      unfold closerNote
      by_cases hlt : |b.progress - 1| < |c.progress - 1|
      · rw [if_pos hlt]
        exact List.mem_cons_of_mem c (List.mem_cons_self b bs)
      · rw [if_neg hlt]
        exact List.mem_cons_self c _
    · exact List.mem_cons_of_mem c (List.mem_cons_of_mem b h1)

theorem foldl_closerNote_min (cs : List ActiveNote) :
    ∀ c : ActiveNote, ∀ m ∈ c :: cs,
      |(cs.foldl closerNote c).progress - 1| ≤ |m.progress - 1| := by
  induction cs with
  | nil =>
    intro c m hm
    simp only [List.mem_singleton] at hm
    subst hm
    exact le_refl _
  | cons b bs ih =>
    intro c m hm
    have hcb_c : |(closerNote c b).progress - 1| ≤ |c.progress - 1| := by
      unfold closerNote
      by_cases hlt : |b.progress - 1| < |c.progress - 1|
      · rw [if_pos hlt]; exact le_of_lt hlt
      · rw [if_neg hlt]
    have hcb_b : |(closerNote c b).progress - 1| ≤ |b.progress - 1| := by
      unfold closerNote
      by_cases hlt : |b.progress - 1| < |c.progress - 1|
      · rw [if_pos hlt]
      · rw [if_neg hlt]; exact le_of_not_lt hlt
    simp only [List.foldl_cons]
    rcases List.mem_cons.mp hm with heq | hm1
    · rw [heq]
      exact le_trans (ih (closerNote c b) _ (List.mem_cons_self _ _)) hcb_c
    · rcases List.mem_cons.mp hm1 with heq | hm2
      · rw [heq]
        exact le_trans (ih (closerNote c b) _ (List.mem_cons_self _ _)) hcb_b
      · exact ih (closerNote c b) m (List.mem_cons_of_mem _ hm2)

/-- Claim C2: on a pluck for string S, `tryHitNote` considers exactly the
active notes on S with `hit = false`, `missed = false` and progress in
`[1 - 0.15, 1 + 0.15]`; it returns `none` iff no note qualifies (and the
engine then treats the pluck as a forced miss); otherwise it selects a
qualifying note whose progress is closest to 1 and classifies it
`perfect` when the deviation is at most 0.08 and `good` when the
deviation is in (0.08, 0.15]. -/
theorem C2 (notes : List ActiveNote) (S : ℤ) :
    (tryHitNote notes S = none ↔ judgeCandidates notes S = []) ∧
    (∀ n : ActiveNote, n ∈ judgeCandidates notes S ↔
      (n ∈ notes ∧ n.songNote.string = S ∧ n.hit = false ∧ n.missed = false ∧
        1 - NOTE_JUDGE_GOOD ≤ n.progress ∧ n.progress ≤ 1 + NOTE_JUDGE_GOOD)) ∧
    (∀ (n : ActiveNote) (r : JudgeResult), tryHitNote notes S = some (n, r) →
      n ∈ judgeCandidates notes S ∧
      (∀ m ∈ judgeCandidates notes S, |n.progress - 1| ≤ |m.progress - 1|) ∧
      (r = .perfect ↔ |n.progress - 1| ≤ NOTE_JUDGE_PERFECT) ∧
      (r = .good ↔ NOTE_JUDGE_PERFECT < |n.progress - 1| ∧
        |n.progress - 1| ≤ NOTE_JUDGE_GOOD)) ∧
    (judgeCandidates notes S = [] → rhythmJudge (tryHitNote notes S) = .miss) := by
  refine ⟨?_, ?_, ?_, ?_⟩
  · cases hc : judgeCandidates notes S with
    | nil => simp [tryHitNote, hc]
    | cons c cs => simp [tryHitNote, hc]
  · intro n
    simp only [judgeCandidates, List.mem_filter, Bool.and_eq_true, decide_eq_true_eq,
      Bool.not_eq_true', ge_iff_le]
    constructor
    · rintro ⟨hmem, ⟨⟨⟨hs, hh⟩, hm⟩, hge⟩, hle⟩
      exact ⟨hmem, hs, hh, hm, hge, hle⟩
    · rintro ⟨hmem, hs, hh, hm, hge, hle⟩
      exact ⟨hmem, ⟨⟨⟨hs, hh⟩, hm⟩, hge⟩, hle⟩
  · intro n r h
    cases hc : judgeCandidates notes S with
    | nil => rw [tryHitNote, hc] at h; cases h
    | cons c cs =>
      rw [tryHitNote, hc] at h
      simp only [Option.some.injEq, Prod.mk.injEq] at h
      obtain ⟨hn, hr⟩ := h
      refine ⟨?_, ?_, ?_, ?_⟩
      · rw [← hn]
        exact foldl_closerNote_mem cs c
      · intro m hm
        rw [← hn]
        exact foldl_closerNote_min cs c m hm
      · rw [← hr, ← hn]
        by_cases hP : |(cs.foldl closerNote c).progress - 1| ≤ NOTE_JUDGE_PERFECT
        · simp [hP]
        · by_cases hG : |(cs.foldl closerNote c).progress - 1| ≤ NOTE_JUDGE_GOOD
          · simp [hP, hG]
          · simp [hP, hG]
      · rw [← hr, ← hn]
        by_cases hP : |(cs.foldl closerNote c).progress - 1| ≤ NOTE_JUDGE_PERFECT
        · simp [hP, not_lt.mpr hP]
        · by_cases hG : |(cs.foldl closerNote c).progress - 1| ≤ NOTE_JUDGE_GOOD
          · simp [hP, hG, lt_of_not_le hP]
          · simp [hP, hG]
  · intro hc
    simp [rhythmJudge, tryHitNote, hc]

/-- Claim C2 witness: with two unjudged notes on string 0 at progress 0.9
and 1.03, `tryHitNote` selects the one at 1.03 (closest to the judgment
line), classifies it `perfect`, and its deviation is minimal among the
candidates. -/
theorem C2_witness :
    (⟨1, ⟨6000, 0⟩, 103/100, false, false⟩ : ActiveNote) ∈
      judgeCandidates [⟨0, ⟨5000, 0⟩, 9/10, false, false⟩,
        ⟨1, ⟨6000, 0⟩, 103/100, false, false⟩] 0 ∧
    |(⟨1, ⟨6000, 0⟩, 103/100, false, false⟩ : ActiveNote).progress - 1| ≤
      |(⟨0, ⟨5000, 0⟩, 9/10, false, false⟩ : ActiveNote).progress - 1| := by
  have h := (C2 [⟨0, ⟨5000, 0⟩, 9/10, false, false⟩,
      ⟨1, ⟨6000, 0⟩, 103/100, false, false⟩] 0).2.2.1
    ⟨1, ⟨6000, 0⟩, 103/100, false, false⟩ .perfect
    (by norm_num [tryHitNote, judgeCandidates, closerNote,
      NOTE_JUDGE_PERFECT, NOTE_JUDGE_GOOD, abs_of_pos, abs_of_nonneg])
  refine ⟨h.1, h.2.1 ⟨0, ⟨5000, 0⟩, 9/10, false, false⟩ ?_⟩
  norm_num [judgeCandidates, NOTE_JUDGE_GOOD]

/-- Claim C3 counterexample: hit notes are NOT removed by `update`.  With
a loaded song and one active note that was hit at progress 1, an update
tick at any later time leaves the note in the active set (its progress is
frozen below the 1.3 threshold, and the filter tests only progress), so a
hit note remains in the set indefinitely. -/
theorem C3_counterexample :
    (noteUpdate ⟨some ⟨180000, 120, 2000, []⟩,
        [⟨0, ⟨5000, 0⟩, 1, true, false⟩], 0, 1⟩ 6000).2 =
      [⟨0, ⟨5000, 0⟩, 1, true, false⟩] ∧
    (⟨0, ⟨5000, 0⟩, 1, true, false⟩ : ActiveNote).hit = true := by
  constructor
  · norm_num [noteUpdate, spawnLoop, updateNoteProgress, NOTE_MISS_THRESHOLD]
  · rfl

/-- Claim C3 (amended): on every `update` tick with a song loaded, every
note in the returned active set has stored progress strictly below the
long-gone threshold 1.3 (notes whose updated progress reaches 1.3 are
filtered out); but progress is advanced only for notes that are neither
hit nor missed, so a hit note's progress is frozen and, while it stays
below 1.3 (which it always does, having been hit inside the judgment
window), the hit note is retained, not removed. -/
theorem C3_amended (s : NMState) (t : ℚ) (song : Song)
    (hsong : s.song = some song) :
    (∀ n ∈ (noteUpdate s t).2, n.progress < NOTE_MISS_THRESHOLD) ∧
    (∀ n ∈ s.activeNotes, n.hit = true → n.progress < NOTE_MISS_THRESHOLD →
      n ∈ (noteUpdate s t).2) := by
  constructor
  · intro n hn
    simp only [noteUpdate, hsong] at hn
    have h := List.of_mem_filter hn
    simpa using h
  · intro n hn hhit hlt
    simp only [noteUpdate, hsong]
    apply List.mem_filter.mpr
    constructor
    · refine List.mem_map.mpr ⟨n, List.mem_append_left _ hn, ?_⟩
      unfold updateNoteProgress
      rw [hhit]
      simp
    · simpa using hlt

/-- Claim C3 amended witness: the counterexample's hit note (progress 1,
below 1.3) is retained by the update tick, as the amended theorem
instantiates. -/
theorem C3_amended_witness :
    (⟨0, ⟨5000, 0⟩, 1, true, false⟩ : ActiveNote) ∈
      (noteUpdate ⟨some ⟨180000, 120, 2000, []⟩,
        [⟨0, ⟨5000, 0⟩, 1, true, false⟩], 0, 1⟩ 6000).2 :=
  (C3_amended ⟨some ⟨180000, 120, 2000, []⟩,
      [⟨0, ⟨5000, 0⟩, 1, true, false⟩], 0, 1⟩ 6000 ⟨180000, 120, 2000, []⟩ rfl).2
    ⟨0, ⟨5000, 0⟩, 1, true, false⟩ (by simp) rfl
    (by norm_num [NOTE_MISS_THRESHOLD])
